import Mathlib

/-!
Verification of the jdklib JDK detection engine.

The development shallowly embeds the core of `src/index.js`:

* the `JDK` constructor (type validation and filesystem checks),
* the probe wrapper `isJDK` (all per-directory failures collapse to "no record"),
* `processJDKs` (sort, default selection, gawk-watcher copying, cache update),
* the older `processResults` sort variant, and
* the path canonicalization / fingerprint pipeline used as the cache key.

External collaborators (`appc.version.compare`, `appc.detect.getPaths`,
`appc.util.sha1`, `appc.path.expand`) are not part of the repository; they are
modelled from the specification, each with a doc comment starting
`Modelled from the spec:`.

JavaScript semantics are embedded as follows: machine numbers that matter here
are version segments and build numbers (modelled as `Nat` / `Int`; no overflow
is exercised), promise rejection becomes `Except`, and the mutable module-level
cache becomes an explicit `CacheState` threaded through `detect`.  gawk objects
store their children as wrapper objects: `jdk.get(key)` returns the stored
wrapper, whose JavaScript `===` is object identity; the embedding gives each
stored `version` / `build` wrapper an allocation identity (`versionWId`,
`buildWId`) and keeps the primitive value alongside (value comparisons in the
source go through `.toJS()`).
-/

namespace Jdklib

/-- A JavaScript value that can appear in the `paths` option: a string or a
non-string (modelled by a number, as in the test `detect({ paths: [123] })`). -/
inductive JSVal
  | vstr (s : String)
  | vnum (n : Int)
deriving DecidableEq

/-- JavaScript truthiness for the values above: the source drops falsy entries
with `.filter(p => p)` before validating; the empty string and 0 are falsy. -/
def jsTruthy : JSVal → Bool
  | .vstr s => !(s == "")
  | .vnum n => !(n == 0)

/-- `typeof v === "string"` for the modelled values. -/
def isString : JSVal → Bool
  | .vstr _ => true
  | .vnum _ => false

/-- Numeric segments of a dotted version string: accumulate decimal digits,
split on the dot.  Used by the model of the external version comparator. -/
def segsOfChars : List Char → Nat → List Nat
  | [], acc => [acc]
  | c :: rest, acc =>
      if c = '.' then acc :: segsOfChars rest 0
      else segsOfChars rest (acc * 10 + (c.toNat - 48))

/-- Numeric segments of a version string such as "1.8.0". -/
def versionSegs (s : String) : List Nat :=
  segsOfChars s.data 0

/-- Segment-by-segment numeric comparison of version segment lists; a shorter
list that is a prefix of the other compares as smaller. -/
def segCompare : List Nat → List Nat → Ordering
  | [], [] => .eq
  | [], _ :: _ => .lt
  | _ :: _, [] => .gt
  | a :: as, b :: bs =>
      if a < b then .lt else if b < a then .gt else segCompare as bs

/-- Modelled from the spec: `appc.version.compare` (node-appc, not in the
repository) compares versions "numerically segment-by-segment (not lexical
string compare)", returning a negative, zero or positive number. -/
def versionCompareI (a b : String) : Int :=
  match segCompare (versionSegs a) (versionSegs b) with
  | .lt => -1
  | .eq => 0
  | .gt => 1

/-- The character codes of a string, for lexicographic comparison. -/
def charCodes (s : String) : List Nat := s.data.map Char.toNat

/-- Strict lexical order on strings by character code, used to model lexical
string ordering (`localeCompare` on the plain ASCII architecture and path
strings used here, and the deterministic canonical path order). -/
def strLt (a b : String) : Bool := segCompare (charCodes a) (charCodes b) == .lt

/-- The corresponding total order on strings (not `b < a`). -/
def strLE (a b : String) : Prop := strLt b a = false

instance : DecidableRel strLE := fun a b =>
  inferInstanceAs (Decidable (strLt b a = false))

/-- One detected JDK, as held in the result collection of `processJDKs`
(`src/index.js`, JDK class fields `path`, `version`, `build`, `architecture`,
`executables`, `default`, plus the gawk bookkeeping `_watchers`).
`versionWId` / `buildWId` are the allocation identities of the gawk wrapper
objects returned by `jdk.get('version')` / `jdk.get('build')`: two records
built by separate `new JDK(...)` constructions carry distinct wrapper
identities even when the wrapped values are equal.  `javac` is
`executables.javac` (absent when the probe found no javac), `watchers` the
opaque subscriber tokens of `_watchers`. -/
structure JDK where
  versionWId : Nat
  buildWId : Nat
  path : String
  version : String
  build : Int
  architecture : String
  javac : Option String
  default : Bool
  watchers : List Nat
deriving DecidableEq

/-- The comparator passed to `jdks.sort` in `processJDKs` (src/index.js
lines 706-711): version comparison first, then on ties
`b1 > b2 ? -1 : b1 < b2 ? 1 : 0`, i.e. larger builds first. -/
def cmpJDK (a b : JDK) : Int :=
  let r := versionCompareI a.version b.version
  if r ≠ 0 then r
  else if a.build > b.build then -1 else if a.build < b.build then 1 else 0

/-- The ordering induced by `cmpJDK`: a sorts no later than b. -/
def jdkLE (a b : JDK) : Prop := cmpJDK a b ≤ 0

instance : DecidableRel jdkLE := fun a b =>
  inferInstanceAs (Decidable (cmpJDK a b ≤ 0))

/-- The comparator of the `processResults` variant (unnamed source, lines
228-240): version comparison, then `(a.build || 0) - (b.build || 0)`, then
`a.architecture.localeCompare(b.architecture)` (lexical; modelled by the
string order). -/
def cmpResults (a b : JDK) : Int :=
  let r := versionCompareI a.version b.version
  if r ≠ 0 then r
  else
    let r2 := a.build - b.build
    if r2 ≠ 0 then r2
    else if strLt a.architecture b.architecture then -1
    else if strLt b.architecture a.architecture then 1 else 0

/-- The ordering induced by `cmpResults`. -/
def resultsLE (a b : JDK) : Prop := cmpResults a b ≤ 0

instance : DecidableRel resultsLE := fun a b =>
  inferInstanceAs (Decidable (cmpResults a b ≤ 0))

/-- `jdks.sort(comparator)` in `processJDKs`: JavaScript `Array.prototype.sort`
with a consistent comparator yields a permutation that is sorted with respect
to the comparator; it is embedded as an insertion sort. -/
def jdkSort (jdks : List JDK) : List JDK :=
  List.insertionSort jdkLE jdks

/-- The sort step of `processResults`: the source only calls `results.sort`
when `results.length > 1` (sorting is the identity on shorter lists anyway). -/
def processResultsSort (results : List JDK) : List JDK :=
  if results.length > 1 then List.insertionSort resultsLE results else results

/-- `path.dirname` for the slash-separated executable paths used here: drop
the final path component. -/
def dirname (p : String) : String :=
  ⟨(((p.data.reverse.dropWhile (· ≠ '/')).drop 1)).reverse⟩

/-- The test `systemPaths[path.dirname(javac)]` in `processJDKs`: the record
has a javac executable and its containing directory is one of the resolved
system search paths. -/
def inSystemPath (sys : List String) (jdk : JDK) : Bool :=
  match jdk.javac with
  | some p => sys.contains (dirname p)
  | none => false

/-- The watcher-copy inner loop of `processJDKs` (lines 731-738): find the
first cached record for which `cachedJDK.get('version') === jdk.get('version')
&& cachedJDK.get('build') === jdk.get('build')` and take over its `_watchers`.
The source compares the wrapper objects returned by `get` without `.toJS()`
(contrast line 707, which applies `.toJS()` before comparing), so `===` is
gawk-wrapper identity, embedded as equality of the allocation identities. -/
def copyWatchers (cached : List JDK) (jdk : JDK) : JDK :=
  match cached.find? (fun c => c.versionWId == jdk.versionWId && c.buildWId == jdk.buildWId) with
  | some c => { jdk with watchers := c.watchers }
  | none => jdk

/-- Watcher copying happens only when a cached collection exists. -/
def copyW : Option (List JDK) → JDK → JDK
  | some cv, j => copyWatchers cv j
  | none, j => j

/-- The main loop of `processJDKs` (lines 715-739) over the sorted records:
while no default has been found, the first record whose javac directory is in
the system path set is marked default; every record then has the cached
watchers copied over.  Returns the processed list and the `foundDefault`
flag.  (The `break` taken when a default is found without a cached collection
only skips watcher copying, which is vacuous in that case.) -/
def processLoop (sys : List String) (cached : Option (List JDK)) :
    Bool → List JDK → List JDK × Bool
  | found, [] => ([], found)
  | found, j :: rest =>
      if !found && inSystemPath sys j then
        let out := processLoop sys cached true rest
        (copyW cached { j with default := true } :: out.1, out.2)
      else
        let out := processLoop sys cached found rest
        (copyW cached j :: out.1, out.2)

/-- `jdks[jdks.length-1].set('default', true)` (line 744): mark the last
record as the default. -/
def setLastDefault : List JDK → List JDK
  | [] => []
  | [j] => [{ j with default := true }]
  | j :: rest => j :: setLastDefault rest

/-- `processJDKs` (src/index.js lines 686-759) without the cache bookkeeping:
sort the records, mark the default (first system-path match in sorted order,
else the last record when the list is non-empty), and copy the gawk watchers
from the cached collection when one exists. -/
def processJDKs (sys : List String) (cached : Option (List JDK)) (jdks : List JDK) : List JDK :=
  let sorted := jdkSort jdks
  let out := processLoop sys cached false sorted
  if out.2 then out.1 else setLastDefault out.1

/-- Modelled from the spec: the path-set normalizer (realized by
`appc.detect.getPaths` in node-appc, outside this repository) "produces a
deterministically sorted, deduplicated sequence"; empty entries have already
been dropped by the caller, and the filter is repeated here so the definition
is meaningful on arbitrary inputs.  Canonical expansion (home directory,
environment variables) is the identity in the model. -/
def canonicalPaths (paths : List String) : List String :=
  List.insertionSort strLE (paths.filter (· ≠ "")).dedup

/-- Modelled from the spec: the cache key is "a fingerprint computed as a
cryptographic hash over the canonical JSON-encoded ordered sequence"
(`appc.util.sha1(JSON.stringify(paths))` at line 700).  The hash is modelled
as the canonical sequence itself, an injective stand-in for a collision-free
hash over an injective encoding. -/
def fingerprint (paths : List String) : List String :=
  canonicalPaths paths

/-- Rejection surface of `detect`. -/
inductive DetectError
  | invalidInput (msg : String)
deriving DecidableEq

/-- Modelled from the spec: `appc.detect.getPaths` "fails with an
InvalidInputError if any element is present but not a string" (error message
from the test suite) and otherwise yields the canonicalized sequence. -/
def getPaths (paths : List JSVal) : Except DetectError (List String) :=
  if paths.all isString then
    .ok (canonicalPaths (paths.filterMap fun v =>
      match v with
      | .vstr s => some s
      | _ => none))
  else
    .error (.invalidInput "Expected paths to be a string or an array of strings")

/-- `isJDK` (src/index.js lines 768-773): run the constructor and `init` and
`catch` every failure into "no record".  The raw probe (constructor plus
subprocess-driven `init`) is a parameter; any of its failures yields `none`. -/
def isJDK (probe : String → Except String JDK) (dir : String) : Option JDK :=
  (probe dir).toOption

/-- The module-level `cache` object of src/index.js: fingerprint, gawk-array
instance identity, and contents per entry, plus a fresh-identity counter. -/
structure CacheState where
  entries : List (List String × Nat × List JDK)
  nextId : Nat

/-- The empty cache (module load time, or after `resetCache`). -/
def emptyCache : CacheState := { entries := [], nextId := 0 }

/-- `cache[hash]` lookup. -/
def CacheState.lookup (s : CacheState) (key : List String) : Option (Nat × List JDK) :=
  (s.entries.find? (fun e => e.1 == key)).map (·.2)

/-- Overwrite the contents of the entry for `key`, keeping its identity. -/
def CacheState.update (s : CacheState) (key : List String) (out : List JDK) : CacheState :=
  { s with entries := s.entries.map (fun e => if e.1 == key then (e.1, e.2.1, out) else e) }

/-- The cache portion of `processJDKs` (lines 700-758): hash the scanned
paths, process the records against the cached collection, then either reuse
the existing gawk array for that hash (replacing `_value` in place) or create
and cache a fresh one.  Returns the instance identity and contents of the
returned collection together with the new cache state. -/
def processJDKsCached (sys : List String) (paths : List String) (jdks : List JDK)
    (s : CacheState) : (Nat × List JDK) × CacheState :=
  let hash := fingerprint paths
  let cachedValue := s.lookup hash
  let out := processJDKs sys (cachedValue.map (·.2)) jdks
  match cachedValue with
  | some c => ((c.1, out), s.update hash out)
  | none =>
      ((s.nextId, out),
       { entries := (hash, s.nextId, out) :: s.entries, nextId := s.nextId + 1 })

/-- `detect` (src/index.js lines 612-625): merge the platform paths with the
`paths` option, drop falsy entries (`.filter(p => p)`), resolve and validate
via `getPaths`, scan every resulting directory with `isJDK`, and process the
results against the cache.  The system search paths `sys` stand for the
resolved `process.env.PATH` set computed at the top of `processJDKs`.
Returns the result (or the validation error), the list of directories that
were probed, and the new cache state. -/
def detect (sys : List String) (platformPaths : List String) (optsPaths : List JSVal)
    (probe : String → Except String JDK) (s : CacheState) :
    Except DetectError (Nat × List JDK) × List String × CacheState :=
  let merged := (platformPaths.map JSVal.vstr ++ optsPaths).filter jsTruthy
  match getPaths merged with
  | .error e => (.error e, [], s)
  | .ok paths =>
      let jdks := paths.filterMap (isJDK probe)
      let r := processJDKsCached sys paths jdks s
      (.ok r.1, paths, r.2)

/-- The filesystem oracle seen by the `JDK` constructor: the platform string,
the `isDir` / `isFile` checks and symlink resolution (`real`). -/
structure FSModel where
  platform : String
  isDir : String → Bool
  isFile : String → Bool
  real : String → String

/-- The required executables checked by the constructor (line 101). -/
def requiredExecutables : List String := ["java", "javac", "keytool", "jarsigner"]

/-- `libjvmLocations` from src/index.js lines 37-56; an unlisted platform has
no entry (`undefined`), modelled by the empty list. -/
def libjvmLocations : String → List String
  | "linux" =>
      ["lib/amd64/client/libjvm.so",
       "lib/amd64/server/libjvm.so",
       "lib/i386/client/libjvm.so",
       "lib/i386/server/libjvm.so",
       "jre/lib/amd64/client/libjvm.so",
       "jre/lib/amd64/server/libjvm.so",
       "jre/lib/i386/client/libjvm.so",
       "jre/lib/i386/server/libjvm.so"]
  | "darwin" =>
      ["jre/lib/server/libjvm.dylib",
       "../Libraries/libjvm.dylib"]
  | "win32" =>
      ["jre/bin/server/jvm.dll",
       "jre/bin/client/jvm.dll"]
  | _ => []

/-- Modelled from the spec: `expandPath` (appcd-path, outside the repository)
expands home-directory and environment tokens; the model treats paths as
already expanded. -/
def expandPath (s : String) : String := s

/-- Errors thrown by the `JDK` constructor: a `TypeError` for the argument
check and plain `Error`s afterwards. -/
inductive CtorError
  | typeError (msg : String)
  | error (msg : String)
deriving DecidableEq

/-- The freshly constructed JDK info (fields set in lines 95-110; `arch`,
`build` and `version` start as `null` and are filled in by `init`). -/
structure JDKInit where
  arch : Option String
  build : Option Int
  executables : List (String × String)
  path : String
  version : Option String
deriving DecidableEq

/-- The `JDK` constructor (src/index.js lines 69-113): the argument must be a
non-empty string (`typeof dir !== 'string' || !dir`), otherwise a `TypeError`
is thrown before anything else; then the directory checks run: existence, the
macOS `Contents/Home` redirection, the JVM library probe, and the four
required executables (with the `.exe` suffix on win32, resolved through
`real`).  `path.resolve` / `path.join` are modelled by `/`-concatenation. -/
def mkJDK (fs : FSModel) (dirArg : JSVal) : Except CtorError JDKInit :=
  match dirArg with
  | .vstr dir0 =>
      if dir0 = "" then .error (.typeError "Expected directory to be a valid string")
      else
        let dir1 := expandPath dir0
        if !(fs.isDir dir1) then .error (.error "Directory does not exist")
        else
          let dir := if fs.platform == "darwin" && fs.isDir (dir1 ++ "/Contents/Home") then
                       dir1 ++ "/Contents/Home" else dir1
          let libjvms := libjvmLocations fs.platform
          if libjvms.isEmpty || !(libjvms.any fun p => fs.isFile (dir ++ "/" ++ p)) then
            .error (.error "Directory missing JVM library")
          else
            let exeSuffix := if fs.platform == "win32" then ".exe" else ""
            if requiredExecutables.all (fun cmd => fs.isFile (dir ++ "/bin/" ++ cmd ++ exeSuffix)) then
              .ok { arch := none, build := none,
                    executables := requiredExecutables.map
                      (fun cmd => (cmd, fs.real (dir ++ "/bin/" ++ cmd ++ exeSuffix))),
                    path := dir, version := none }
            else .error (.error "Directory missing required program")
  | _ => .error (.typeError "Expected directory to be a valid string")

/-- The argument values the constructor accepts: non-empty strings. -/
def isNonEmptyString : JSVal → Bool
  | .vstr s => !(s == "")
  | _ => false

/-- The ordering stated by the specification for the merge/sort step: version
ascending under numeric segment-by-segment comparison, then build numerically
ascending, then architecture lexically ascending. -/
def specLEAsc (a b : JDK) : Bool :=
  versionCompareI a.version b.version < 0 ||
  (versionCompareI a.version b.version == 0 &&
    (a.build < b.build ||
      (a.build == b.build && !(strLt b.architecture a.architecture))))

/-- The ordering that `processJDKs` actually realizes: version ascending, and
on equal versions build descending, with no architecture tie-break. -/
def specLEDesc (a b : JDK) : Bool :=
  versionCompareI a.version b.version < 0 ||
  (versionCompareI a.version b.version == 0 && b.build ≤ a.build)

/-- True exactly at the first true of the input, false elsewhere. -/
def markFirstTrue : List Bool → List Bool
  | [] => []
  | b :: rest => if b then true :: rest.map (fun _ => false) else false :: markFirstTrue rest

/-- Modelled from the spec: the default flags over the sorted collection, as
a function of which sorted records match the system search path — true at the
first match; when no record matches and the list is non-empty, true at the
last position. -/
def defaultMask (bs : List Bool) : List Bool :=
  if bs.any id then markFirstTrue bs
  else if bs.isEmpty then []
  else List.replicate (bs.length - 1) false ++ [true]

/-- The scan-visible identity of a record: path, version, build and
architecture. -/
def recKey (j : JDK) : String × String × Int × String :=
  (j.path, j.version, j.build, j.architecture)

/-- The gawk wrapper identities of a record. -/
def wid (j : JDK) : Nat × Nat :=
  (j.versionWId, j.buildWId)

/-! ### Order-theoretic facts about the comparators -/

theorem segCompare_eq_iff : ∀ (x y : List Nat), segCompare x y = .eq ↔ x = y := by
  intro x
  induction x with
  | nil => intro y; cases y <;> simp [segCompare]
  | cons a as ih =>
      intro y
      cases y with
      | nil => simp [segCompare]
      | cons b bs =>
          simp only [segCompare, List.cons.injEq]
          rcases Nat.lt_trichotomy a b with h | h | h
          · rw [if_pos h]
            constructor
            · intro hc; exact absurd hc (by decide)
            · rintro ⟨rfl, -⟩; omega
          · subst h
            rw [if_neg (by omega), if_neg (by omega), ih bs]
            simp
          · rw [if_neg (by omega), if_pos h]
            constructor
            · intro hc; exact absurd hc (by decide)
            · rintro ⟨rfl, -⟩; omega

theorem segCompare_swap : ∀ (x y : List Nat), segCompare y x = (segCompare x y).swap := by
  intro x
  induction x with
  | nil => intro y; cases y <;> simp [segCompare, Ordering.swap]
  | cons a as ih =>
      intro y
      cases y with
      | nil => simp [segCompare, Ordering.swap]
      | cons b bs =>
          simp only [segCompare]
          rcases Nat.lt_trichotomy a b with h | h | h
          · rw [if_neg (Nat.lt_asymm h), if_pos h, if_pos h]; rfl
          · subst h
            rw [if_neg (Nat.lt_irrefl a), if_neg (Nat.lt_irrefl a), if_neg (Nat.lt_irrefl a),
              if_neg (Nat.lt_irrefl a)]
            exact ih bs
          · rw [if_pos h, if_neg (Nat.lt_asymm h), if_pos h]; rfl

theorem segCompare_lt_trans :
    ∀ (x y z : List Nat), segCompare x y = .lt → segCompare y z = .lt → segCompare x z = .lt := by
  intro x
  induction x with
  | nil =>
      intro y z hxy hyz
      cases y with
      | nil => exact hyz
      | cons b bs =>
          cases z with
          | nil => simp [segCompare] at hyz
          | cons c cs => simp [segCompare]
  | cons a as ih =>
      intro y z hxy hyz
      cases y with
      | nil => simp [segCompare] at hxy
      | cons b bs =>
          cases z with
          | nil => simp [segCompare] at hyz
          | cons c cs =>
              simp only [segCompare] at hxy hyz ⊢
              rcases Nat.lt_trichotomy a b with hab | hab | hab
              · rcases Nat.lt_trichotomy b c with hbc | hbc | hbc
                · rw [if_pos (by omega)]
                · subst hbc; rw [if_pos hab]
                · rw [if_pos hbc, if_neg (by omega)] at hyz
                  rcases Nat.lt_trichotomy a c with hac | hac | hac
                  · rw [if_pos hac]
                  · exact absurd hyz (by decide)
                  · exact absurd hyz (by decide)
              · subst hab
                rw [if_neg (by omega), if_neg (by omega)] at hxy
                rcases Nat.lt_trichotomy a c with hac | hac | hac
                · rw [if_pos hac]
                · subst hac
                  rw [if_neg (by omega), if_neg (by omega)] at hyz ⊢
                  exact ih bs cs hxy hyz
                · rw [if_neg (by omega), if_pos hac] at hyz
                  exact absurd hyz (by decide)
              · rw [if_neg (by omega), if_pos hab] at hxy
                exact absurd hxy (by decide)

theorem segCompare_self (x : List Nat) : segCompare x x = .eq :=
  (segCompare_eq_iff x x).mpr rfl

/-- A three-way comparison result is `lt`, `eq` or `gt`. -/
theorem ordering_cases (o : Ordering) : o = .lt ∨ o = .eq ∨ o = .gt := by
  cases o <;> simp

theorem strLE_iff (a b : String) :
    strLE a b ↔ segCompare (charCodes a) (charCodes b) ≠ .gt := by
  unfold strLE strLt
  rw [segCompare_swap (charCodes a) (charCodes b)]
  rcases ordering_cases (segCompare (charCodes a) (charCodes b)) with h | h | h <;>
    rw [h] <;> decide

theorem charCodes_inj {a b : String} (h : charCodes a = charCodes b) : a = b := by
  have hinj : Function.Injective Char.toNat := StrictMono.injective fun _ _ h => h
  have hdata : a.data = b.data := List.map_injective_iff.mpr hinj h
  cases a; cases b; exact congrArg String.mk hdata

instance : IsTotal String strLE := by
  constructor
  intro a b
  rw [strLE_iff, strLE_iff, segCompare_swap (charCodes a) (charCodes b)]
  rcases ordering_cases (segCompare (charCodes a) (charCodes b)) with h | h | h <;>
    rw [h] <;> decide

instance : IsTrans String strLE := by
  constructor
  intro a b c hab hbc
  rw [strLE_iff] at hab hbc ⊢
  rcases ordering_cases (segCompare (charCodes a) (charCodes b)) with h1 | h1 | h1
  · rcases ordering_cases (segCompare (charCodes b) (charCodes c)) with h2 | h2 | h2
    · rw [segCompare_lt_trans _ _ _ h1 h2]; decide
    · rw [(segCompare_eq_iff _ _).mp h2] at h1
      rw [h1]; decide
    · exact absurd h2 hbc
  · rw [(segCompare_eq_iff _ _).mp h1]
    exact hbc
  · exact absurd h1 hab

instance : IsAntisymm String strLE := by
  constructor
  intro a b hab hba
  rw [strLE_iff] at hab hba
  rw [segCompare_swap (charCodes a) (charCodes b)] at hba
  apply charCodes_inj
  apply (segCompare_eq_iff _ _).mp
  rcases ordering_cases (segCompare (charCodes a) (charCodes b)) with h | h | h
  · rw [h] at hba
    exact absurd (by decide : Ordering.lt.swap = Ordering.gt) hba
  · exact h
  · exact absurd h hab

theorem jdkLE_iff (a b : JDK) :
    jdkLE a b ↔ (segCompare (versionSegs a.version) (versionSegs b.version) = .lt ∨
      (segCompare (versionSegs a.version) (versionSegs b.version) = .eq ∧ b.build ≤ a.build)) := by
  unfold jdkLE cmpJDK versionCompareI
  cases hseg : segCompare (versionSegs a.version) (versionSegs b.version)
  · simp
  · simp only [reduceCtorEq, false_and, false_or, true_and]
    split_ifs <;> simp <;> omega
  · simp

theorem archCmp_le_iff (x y : String) :
    ((if strLt x y then (-1 : Int) else if strLt y x then 1 else 0) ≤ 0) ↔ strLE x y := by
  unfold strLE strLt
  rw [segCompare_swap (charCodes x) (charCodes y)]
  cases h : segCompare (charCodes x) (charCodes y) <;> decide

theorem resultsLE_iff (a b : JDK) :
    resultsLE a b ↔ (segCompare (versionSegs a.version) (versionSegs b.version) = .lt ∨
      (segCompare (versionSegs a.version) (versionSegs b.version) = .eq ∧
        (a.build < b.build ∨ (a.build = b.build ∧ strLE a.architecture b.architecture)))) := by
  unfold resultsLE cmpResults versionCompareI
  cases hseg : segCompare (versionSegs a.version) (versionSegs b.version)
  · simp
  · simp only [reduceCtorEq, false_and, false_or, true_and]
    rcases Int.lt_trichotomy a.build b.build with h | h | h
    · rw [if_neg (by omega), if_pos (by omega)]
      constructor
      · intro _; left; exact h
      · intro _; omega
    · rw [if_neg (by omega)]
      rw [show a.build - b.build = 0 by omega]
      rw [if_neg (by omega)]
      rw [archCmp_le_iff]
      simp [h]
    · rw [if_neg (by omega), if_pos (by omega)]
      constructor
      · intro hc; exact absurd hc (by omega)
      · intro hc; rcases hc with hc | ⟨hc, -⟩ <;> omega
  · simp

instance : IsTotal JDK jdkLE := by
  constructor
  intro a b
  rw [jdkLE_iff, jdkLE_iff,
    segCompare_swap (versionSegs a.version) (versionSegs b.version)]
  cases hseg : segCompare (versionSegs a.version) (versionSegs b.version) <;>
    simp [Ordering.swap] <;> omega

instance : IsTrans JDK jdkLE := by
  constructor
  intro a b c hab hbc
  rw [jdkLE_iff] at hab hbc ⊢
  rcases hab with hab | ⟨hab, hab2⟩
  · rcases hbc with hbc | ⟨hbc, _⟩
    · exact Or.inl (segCompare_lt_trans _ _ _ hab hbc)
    · rw [(segCompare_eq_iff _ _).mp hbc] at hab
      exact Or.inl hab
  · rw [(segCompare_eq_iff _ _).mp hab]
    rcases hbc with hbc | ⟨hbc, hbc2⟩
    · exact Or.inl hbc
    · exact Or.inr ⟨hbc, le_trans hbc2 hab2⟩

instance : IsTotal JDK resultsLE := by
  constructor
  intro a b
  rw [resultsLE_iff, resultsLE_iff,
    segCompare_swap (versionSegs a.version) (versionSegs b.version)]
  cases hseg : segCompare (versionSegs a.version) (versionSegs b.version) <;>
    simp [Ordering.swap]
  rcases Int.lt_trichotomy a.build b.build with h | h | h
  · exact Or.inl (Or.inl h)
  · rcases total_of strLE a.architecture b.architecture with ht | ht
    · exact Or.inl (Or.inr ⟨h, ht⟩)
    · exact Or.inr (Or.inr ⟨h.symm, ht⟩)
  · exact Or.inr (Or.inl h)

instance : IsTrans JDK resultsLE := by
  constructor
  intro a b c hab hbc
  rw [resultsLE_iff] at hab hbc ⊢
  rcases hab with hab | ⟨hab, hab2⟩
  · rcases hbc with hbc | ⟨hbc, _⟩
    · exact Or.inl (segCompare_lt_trans _ _ _ hab hbc)
    · rw [(segCompare_eq_iff _ _).mp hbc] at hab
      exact Or.inl hab
  · rw [(segCompare_eq_iff _ _).mp hab]
    rcases hbc with hbc | ⟨hbc, hbc2⟩
    · exact Or.inl hbc
    · refine Or.inr ⟨hbc, ?_⟩
      rcases hab2 with h1 | ⟨h1, h1a⟩
      · rcases hbc2 with h2 | ⟨h2, _⟩
        · exact Or.inl (lt_trans h1 h2)
        · exact Or.inl (by omega)
      · rcases hbc2 with h2 | ⟨h2, h2a⟩
        · exact Or.inl (by omega)
        · exact Or.inr ⟨by omega, Trans.trans h1a h2a⟩

theorem jdkLE_iff_specLEDesc (a b : JDK) : jdkLE a b ↔ specLEDesc a b = true := by
  rw [jdkLE_iff]
  unfold specLEDesc versionCompareI
  cases hseg : segCompare (versionSegs a.version) (versionSegs b.version) <;> simp

theorem resultsLE_iff_specLEAsc (a b : JDK) : resultsLE a b ↔ specLEAsc a b = true := by
  rw [resultsLE_iff]
  unfold specLEAsc versionCompareI strLE
  cases hseg : segCompare (versionSegs a.version) (versionSegs b.version) <;> simp

/-! ### C1: ordering of the merge/sort step -/

/-- Concrete record: version 1.8.0 build 1 (input of the sort counterexample). -/
def cexJdkA : JDK :=
  { versionWId := 0, buildWId := 1, path := "/jdk-a", version := "1.8.0",
    build := 1, architecture := "64bit", javac := none, default := false, watchers := [] }

/-- Concrete record: version 1.8.0 build 2 (input of the sort counterexample). -/
def cexJdkB : JDK :=
  { versionWId := 2, buildWId := 3, path := "/jdk-b", version := "1.8.0",
    build := 2, architecture := "64bit", javac := none, default := false, watchers := [] }

/-- C1, counterexample: on two records that share version 1.8.0 and have
builds 1 and 2, the sort of `processJDKs` puts build 2 first, so its output is
not ordered by build numerically ascending as the claim states. -/
theorem sort_build_ascending_cex :
    jdkSort [cexJdkA, cexJdkB] = [cexJdkB, cexJdkA] ∧
    ¬ ((jdkSort [cexJdkA, cexJdkB]).Pairwise fun a b => specLEAsc a b = true) := by
  decide

/-- C1 (amended): the sort of the `processResults` variant orders records by
version ascending under numeric segment-by-segment comparison, on equal
versions by build numerically ascending, and on equal builds by architecture
lexically, as the claim states; the sort of `processJDKs` orders records by
version ascending but orders equal versions by build numerically descending
and applies no architecture tie-break.  Both sorts permute the scanned
records. -/
theorem sort_orders_amended (js rs : List JDK) :
    ((jdkSort js).Perm js ∧ (jdkSort js).Pairwise (fun a b => specLEDesc a b = true))
    ∧ ((processResultsSort rs).Perm rs ∧
        (processResultsSort rs).Pairwise (fun a b => specLEAsc a b = true)) := by
  refine ⟨⟨List.perm_insertionSort jdkLE js, ?_⟩, ?_, ?_⟩
  · exact List.Pairwise.imp (fun h => (jdkLE_iff_specLEDesc _ _).mp h)
      (List.sorted_insertionSort jdkLE js)
  · unfold processResultsSort
    split
    · exact List.perm_insertionSort resultsLE rs
    · exact List.Perm.refl rs
  · unfold processResultsSort
    split
    · exact List.Pairwise.imp (fun h => (resultsLE_iff_specLEAsc _ _).mp h)
        (List.sorted_insertionSort resultsLE rs)
    · rename_i h
      rcases rs with - | ⟨a, - | ⟨b, t⟩⟩
      · exact List.Pairwise.nil
      · exact List.pairwise_singleton _ a
      · simp at h

/-! ### C2 and C3: default selection -/

theorem copyW_shape (cached : Option (List JDK)) (j : JDK) :
    ∃ w, copyW cached j = { j with watchers := w } := by
  cases cached with
  | none => exact ⟨j.watchers, rfl⟩
  | some cv =>
      simp only [copyW, copyWatchers]
      cases cv.find? (fun c => c.versionWId == j.versionWId && c.buildWId == j.buildWId) with
      | none => exact ⟨j.watchers, rfl⟩
      | some c => exact ⟨c.watchers, rfl⟩

theorem copyW_default (cached : Option (List JDK)) (j : JDK) :
    (copyW cached j).default = j.default := by
  obtain ⟨w, hw⟩ := copyW_shape cached j
  rw [hw]

theorem processLoop_found (sys : List String) (cached : Option (List JDK)) :
    ∀ l : List JDK, (∀ j ∈ l, j.default = false) →
      ((processLoop sys cached true l).1.map JDK.default = l.map (fun _ => false) ∧
        (processLoop sys cached true l).2 = true) := by
  intro l
  induction l with
  | nil => intro h; exact ⟨rfl, rfl⟩
  | cons j rest ih =>
      intro h
      have hj : j.default = false := h j (List.mem_cons_self j rest)
      have hrest := ih (fun x hx => h x (List.mem_cons_of_mem j hx))
      unfold processLoop
      simp [copyW_default, hj, hrest.1, hrest.2]

theorem processLoop_start (sys : List String) (cached : Option (List JDK)) :
    ∀ l : List JDK, (∀ j ∈ l, j.default = false) →
      ((processLoop sys cached false l).1.map JDK.default
          = markFirstTrue (l.map (inSystemPath sys)) ∧
        (processLoop sys cached false l).2 = (l.map (inSystemPath sys)).any id) := by
  intro l
  induction l with
  | nil => intro h; exact ⟨rfl, rfl⟩
  | cons j rest ih =>
      intro h
      have hj : j.default = false := h j (List.mem_cons_self j rest)
      have hmem : ∀ x ∈ rest, x.default = false := fun x hx => h x (List.mem_cons_of_mem j hx)
      unfold processLoop
      cases hp : inSystemPath sys j with
      | true =>
          have hrest := processLoop_found sys cached rest hmem
          simp [hp, markFirstTrue, copyW_default, hrest.1, hrest.2, List.map_map,
            Function.comp_def]
      | false =>
          have hrest := ih hmem
          simp [hp, markFirstTrue, copyW_default, hj, hrest.1, hrest.2]

theorem markFirstTrue_all_false :
    ∀ bs : List Bool, bs.any id = false → markFirstTrue bs = bs := by
  intro bs
  induction bs with
  | nil => intro _; rfl
  | cons b rest ih =>
      intro h
      simp only [List.any_cons, id_eq, Bool.or_eq_false_iff] at h
      unfold markFirstTrue
      simp [h.1, ih h.2]

theorem markFirstTrue_length :
    ∀ bs : List Bool, (markFirstTrue bs).length = bs.length := by
  intro bs
  induction bs with
  | nil => rfl
  | cons b rest ih =>
      unfold markFirstTrue
      cases b <;> simp [ih]

theorem filter_id_map_false {α : Type} (l : List α) :
    (l.map (fun _ => false)).filter id = [] := by
  induction l with
  | nil => rfl
  | cons a rest ih => simpa using ih

theorem filter_id_replicate_false (n : Nat) :
    (List.replicate n false).filter id = [] := by
  induction n with
  | zero => rfl
  | succ n ih => simpa [List.replicate_succ] using ih

theorem filter_id_last_true (n : Nat) :
    ((List.replicate n false ++ [true]).filter id).length = 1 := by
  rw [List.filter_append, filter_id_replicate_false]
  rfl

theorem filter_id_markFirstTrue :
    ∀ bs : List Bool, ((markFirstTrue bs).filter id).length = if bs.any id then 1 else 0 := by
  intro bs
  induction bs with
  | nil => rfl
  | cons b rest ih =>
      unfold markFirstTrue
      cases b with
      | true => simp [filter_id_map_false]
      | false => simpa using ih

theorem defaultMask_count (bs : List Bool) :
    ((defaultMask bs).filter id).length = if bs.isEmpty then 0 else 1 := by
  unfold defaultMask
  cases hany : bs.any id with
  | true =>
      have hne : bs.isEmpty = false := by
        cases bs
        · simp at hany
        · rfl
      simp [filter_id_markFirstTrue, hany, hne]
  | false =>
      cases bs with
      | nil => rfl
      | cons b rest => simp [filter_id_last_true]

theorem setLastDefault_map (l : List JDK) (h : ∀ j ∈ l, j.default = false) :
    (setLastDefault l).map JDK.default =
      if l.isEmpty then [] else List.replicate (l.length - 1) false ++ [true] := by
  induction l with
  | nil => rfl
  | cons j rest ih =>
      cases rest with
      | nil => simp [setLastDefault]
      | cons k rest2 =>
          have hj : j.default = false := h j (List.mem_cons_self _ _)
          have ih2 := ih (fun x hx => h x (List.mem_cons_of_mem j hx))
          show (j :: setLastDefault (k :: rest2)).map JDK.default = _
          simp only [List.map_cons, hj, ih2]
          simp [List.replicate_succ]

theorem processJDKs_default_map (sys : List String) (cached : Option (List JDK))
    (jdks : List JDK) (h : ∀ j ∈ jdks, j.default = false) :
    (processJDKs sys cached jdks).map JDK.default
      = defaultMask ((jdkSort jdks).map (inSystemPath sys)) := by
  have hsorted : ∀ j ∈ jdkSort jdks, j.default = false := fun j hj =>
    h j ((List.perm_insertionSort jdkLE jdks).mem_iff.mp hj)
  obtain ⟨hmap, hflag⟩ := processLoop_start sys cached (jdkSort jdks) hsorted
  unfold processJDKs
  show List.map JDK.default
      (if (processLoop sys cached false (jdkSort jdks)).2 = true then
        (processLoop sys cached false (jdkSort jdks)).1
      else setLastDefault (processLoop sys cached false (jdkSort jdks)).1) = _
  cases hany : ((jdkSort jdks).map (inSystemPath sys)).any id with
  | true =>
      rw [hflag, hany, if_pos rfl, hmap]
      simp [defaultMask, hany]
  | false =>
      rw [hflag, hany, if_neg (by simp)]
      have hall : ∀ j ∈ (processLoop sys cached false (jdkSort jdks)).1, j.default = false := by
        intro j hj
        have hmem : j.default ∈ (processLoop sys cached false (jdkSort jdks)).1.map JDK.default :=
          List.mem_map_of_mem JDK.default hj
        rw [hmap, markFirstTrue_all_false _ hany] at hmem
        have := List.any_eq_false.mp hany
        simpa using this _ hmem
      rw [setLastDefault_map _ hall]
      have hlen : (processLoop sys cached false (jdkSort jdks)).1.length
          = ((jdkSort jdks).map (inSystemPath sys)).length := by
        have := congrArg List.length hmap
        simpa [markFirstTrue_length] using this
      simp only [defaultMask, hany, Bool.false_eq_true, if_false]
      simp only [List.isEmpty_iff_length_eq_zero, hlen]

/-- C2: during default selection over the sorted record list, the first
record whose javac containing directory belongs to the resolved search-path
set is marked default and no further record is considered; if no record
matches and the list is non-empty, the last record in sorted order is marked
default.  `defaultMask` makes this shape explicit: the default flags are true
exactly at the first search-path match, else at the last position. -/
theorem processJDKs_default_selection (sys : List String) (cached : Option (List JDK))
    (jdks : List JDK) (h : ∀ j ∈ jdks, j.default = false) :
    (processJDKs sys cached jdks).map JDK.default
      = defaultMask ((jdkSort jdks).map (inSystemPath sys)) :=
  processJDKs_default_map sys cached jdks h

/-- Concrete record for the C2 witness: version 1.7.0 build 80, javac outside
the search path. -/
def w2jdkOld : JDK :=
  { versionWId := 10, buildWId := 11, path := "/old/jdk", version := "1.7.0",
    build := 80, architecture := "64bit", javac := some "/old/jdk/bin/javac",
    default := false, watchers := [] }

/-- Concrete record for the C2 witness: version 1.8.0 build 92, javac in the
search path. -/
def w2jdkNew : JDK :=
  { versionWId := 12, buildWId := 13, path := "/usr/jdk", version := "1.8.0",
    build := 92, architecture := "64bit", javac := some "/usr/jdk/bin/javac",
    default := false, watchers := [] }

/-- C2, witness: with the search path containing the 1.8.0 javac directory,
the sorted collection [1.7.0, 1.8.0] gets its default flag exactly on the
1.8.0 record. -/
theorem processJDKs_default_selection_witness :
    (processJDKs ["/usr/jdk/bin"] none [w2jdkOld, w2jdkNew]).map JDK.default
      = [false, true] :=
  (processJDKs_default_selection ["/usr/jdk/bin"] none [w2jdkOld, w2jdkNew]
    (by decide)).trans (by decide)

theorem filter_default_length (l : List JDK) :
    (l.filter JDK.default).length = ((l.map JDK.default).filter id).length := by
  induction l with
  | nil => rfl
  | cons j rest ih => cases hj : j.default <;> simp [hj, ih]

/-- C3: a result collection produced by processing freshly scanned records
(all default flags false, as the constructor creates them) has at most one
record with the default flag set, and exactly one when non-empty. -/
theorem processJDKs_unique_default (sys : List String) (cached : Option (List JDK))
    (jdks : List JDK) (h : ∀ j ∈ jdks, j.default = false) :
    ((processJDKs sys cached jdks).filter JDK.default).length ≤ 1 ∧
      (jdks ≠ [] → ((processJDKs sys cached jdks).filter JDK.default).length = 1) := by
  have hm := processJDKs_default_map sys cached jdks h
  have hcount : ((processJDKs sys cached jdks).filter JDK.default).length
      = if ((jdkSort jdks).map (inSystemPath sys)).isEmpty then 0 else 1 := by
    rw [filter_default_length, hm, defaultMask_count]
  have hlen : ((jdkSort jdks).map (inSystemPath sys)).length = jdks.length := by
    rw [List.length_map]
    exact (List.perm_insertionSort jdkLE jdks).length_eq
  constructor
  · rw [hcount]; split <;> omega
  · intro hne
    have hnz : ((jdkSort jdks).map (inSystemPath sys)).length ≠ 0 := by
      rw [hlen]
      intro hz
      exact hne (List.length_eq_zero.mp hz)
    rw [hcount, if_neg (fun hemp => hnz (List.isEmpty_iff_length_eq_zero.mp hemp))]

/-- Concrete record for the C3 witness. -/
def w3jdk : JDK :=
  { versionWId := 20, buildWId := 21, path := "/jdk", version := "1.6.0",
    build := 45, architecture := "32bit", javac := some "/jdk/bin/javac",
    default := false, watchers := [] }

/-- C3, witness: a singleton scan yields exactly one default record. -/
theorem processJDKs_unique_default_witness :
    ((processJDKs [] none [w3jdk]).filter JDK.default).length = 1 :=
  (processJDKs_unique_default [] none [w3jdk] (by decide)).2 (by decide)

/-! ### C4: duplicate (version, build, architecture) triples -/

theorem recKey_copyW (cached : Option (List JDK)) (j : JDK) :
    recKey (copyW cached j) = recKey j := by
  obtain ⟨w, hw⟩ := copyW_shape cached j
  rw [hw]; rfl

theorem recKey_setDefault (j : JDK) (d : Bool) :
    recKey { j with default := d } = recKey j := rfl

theorem processLoop_map_recKey (sys : List String) (cached : Option (List JDK)) :
    ∀ (found : Bool) (l : List JDK),
      (processLoop sys cached found l).1.map recKey = l.map recKey := by
  intro found l
  induction l generalizing found with
  | nil => rfl
  | cons j rest ih =>
      unfold processLoop
      cases hp : (!found && inSystemPath sys j) with
      | true => simp [hp, recKey_copyW, recKey_setDefault, ih]
      | false => simp [hp, recKey_copyW, ih]

theorem setLastDefault_map_recKey :
    ∀ l : List JDK, (setLastDefault l).map recKey = l.map recKey := by
  intro l
  induction l with
  | nil => rfl
  | cons j rest ih =>
      cases rest with
      | nil => simp [setLastDefault, recKey_setDefault]
      | cons k rest2 =>
          show (j :: setLastDefault (k :: rest2)).map recKey = _
          simp only [List.map_cons, ih]

/-- C4 (amended): the merge/sort step performs no deduplication — the keys
(path, version, build, architecture) of the produced collection are exactly a
permutation of the scanned records' keys, so two records that share the same
(version, build, architecture) triple at different paths both remain in the
collection. -/
theorem processJDKs_no_dedup (sys : List String) (cached : Option (List JDK))
    (jdks : List JDK) :
    ((processJDKs sys cached jdks).map recKey).Perm (jdks.map recKey) := by
  have hperm : ((jdkSort jdks).map recKey).Perm (jdks.map recKey) :=
    (List.perm_insertionSort jdkLE jdks).map recKey
  unfold processJDKs
  show (List.map recKey
      (if (processLoop sys cached false (jdkSort jdks)).2 = true then
        (processLoop sys cached false (jdkSort jdks)).1
      else setLastDefault (processLoop sys cached false (jdkSort jdks)).1)).Perm _
  split
  · rw [processLoop_map_recKey]; exact hperm
  · rw [setLastDefault_map_recKey, processLoop_map_recKey]; exact hperm

/-- Concrete record for the C4 counterexample: a 1.8.0 build 92 64bit JDK at
path /jdks/a. -/
def c4jdkA : JDK :=
  { versionWId := 30, buildWId := 31, path := "/jdks/a", version := "1.8.0",
    build := 92, architecture := "64bit", javac := none, default := false, watchers := [] }

/-- Concrete record for the C4 counterexample: an identical JDK copy (same
version, build and architecture) at path /jdks/b. -/
def c4jdkB : JDK :=
  { versionWId := 32, buildWId := 33, path := "/jdks/b", version := "1.8.0",
    build := 92, architecture := "64bit", javac := none, default := false, watchers := [] }

/-- C4, counterexample: two scanned records with the same (version, build,
architecture) triple at different paths both appear in the collection
produced by processJDKs, so the claimed triple uniqueness fails. -/
theorem processJDKs_triple_dup_cex :
    ¬ (((processJDKs [] none [c4jdkA, c4jdkB]).map
        (fun j => (j.version, j.build, j.architecture))).Nodup) := by
  decide

/-! ### C5 and C6: validation and probe-failure recovery in detect -/

theorem beq_empty_decide (x : String) : (x == "") = decide (x = "") := by
  rw [Bool.eq_iff_iff]
  simp

theorem merged_strings (pp q : List String) :
    (pp.map JSVal.vstr ++ q.map JSVal.vstr).filter jsTruthy
      = ((pp ++ q).filter (fun x => x ≠ "")).map JSVal.vstr := by
  rw [← List.map_append, List.filter_map]
  congr 1
  apply List.filter_congr
  intro x _
  simp [jsTruthy, Function.comp, beq_empty_decide]

theorem all_isString_map (l : List String) : (l.map JSVal.vstr).all isString = true := by
  induction l with
  | nil => rfl
  | cons a rest ih => simpa [isString] using ih

theorem filterMap_vstr (l : List String) :
    (l.map JSVal.vstr).filterMap (fun v =>
      match v with
      | .vstr s => some s
      | _ => none) = l := by
  induction l with
  | nil => rfl
  | cons a rest ih => simpa using ih

theorem canonicalPaths_filter (l : List String) :
    canonicalPaths (l.filter (fun x => x ≠ "")) = canonicalPaths l := by
  unfold canonicalPaths
  rw [List.filter_filter]
  congr 2
  apply List.filter_congr
  intro x _
  simp

theorem getPaths_strings (l : List String) :
    getPaths (l.map JSVal.vstr) = .ok (canonicalPaths l) := by
  unfold getPaths
  rw [all_isString_map, if_pos rfl, filterMap_vstr]

theorem detect_strings_eval (sys pp q : List String)
    (probe : String → Except String JDK) (s : CacheState) :
    detect sys pp (q.map JSVal.vstr) probe s
      = (.ok (processJDKsCached sys (canonicalPaths (pp ++ q))
              ((canonicalPaths (pp ++ q)).filterMap (isJDK probe)) s).1,
         canonicalPaths (pp ++ q),
         (processJDKsCached sys (canonicalPaths (pp ++ q))
            ((canonicalPaths (pp ++ q)).filterMap (isJDK probe)) s).2) := by
  simp only [detect]
  rw [merged_strings, getPaths_strings, canonicalPaths_filter]

/-- C5, counterexample: the paths option [0] contains a present element that
is not a string, yet detect resolves without any rejection and the platform
directory is still probed — the falsy 0 is silently dropped by the
`.filter(p => p)` step (line 618) before the validation in `getPaths` ever
sees it, so the claim as stated fails for present falsy non-string
elements. -/
theorem detect_falsy_nonstring_not_rejected :
    isString (JSVal.vnum 0) = false
    ∧ (detect [] ["/usr/lib/jvm"] [JSVal.vnum 0] (fun _ => .error "x") emptyCache).1.isOk
        = true
    ∧ (detect [] ["/usr/lib/jvm"] [JSVal.vnum 0] (fun _ => .error "x") emptyCache).2.1
        = ["/usr/lib/jvm"] :=
  ⟨rfl, rfl, rfl⟩

/-- C5 (amended): when the paths option contains a truthy non-string element
— one that survives the `.filter(p => p)` step, such as the number 123 —
detect rejects with the input-validation error and no directory is probed;
falsy elements (the empty string, 0) are silently dropped before
validation. -/
theorem detect_invalid_paths_rejects (sys platformPaths : List String)
    (optsPaths : List JSVal) (probe : String → Except String JDK) (s : CacheState)
    (h : ∃ v ∈ optsPaths, isString v = false ∧ jsTruthy v = true) :
    (detect sys platformPaths optsPaths probe s).1
        = .error (.invalidInput "Expected paths to be a string or an array of strings") ∧
      (detect sys platformPaths optsPaths probe s).2.1 = [] := by
  obtain ⟨v, hv, hstr, htr⟩ := h
  have hmem : v ∈ (platformPaths.map JSVal.vstr ++ optsPaths).filter jsTruthy :=
    List.mem_filter.mpr ⟨List.mem_append_right _ hv, htr⟩
  have hall : ((platformPaths.map JSVal.vstr ++ optsPaths).filter jsTruthy).all isString
      = false := by
    rw [List.all_eq_false]
    exact ⟨v, hmem, by simp [hstr]⟩
  simp only [detect, getPaths]
  rw [hall]
  exact ⟨rfl, rfl⟩

/-- C5, witness: `detect({ paths: [123] })` rejects with the validation error
and the probed-directory list is empty. -/
theorem detect_invalid_paths_rejects_witness :
    (detect [] [] [JSVal.vnum 123] (fun _ => .error "nope") emptyCache).1
        = .error (.invalidInput "Expected paths to be a string or an array of strings") ∧
      (detect [] [] [JSVal.vnum 123] (fun _ => .error "nope") emptyCache).2.1 = [] :=
  detect_invalid_paths_rejects [] [] [JSVal.vnum 123] (fun _ => .error "nope") emptyCache
    ⟨JSVal.vnum 123, List.mem_cons_self _ _, rfl, rfl⟩

theorem processJDKs_nil (sys : List String) (cached : Option (List JDK)) :
    processJDKs sys cached [] = [] := rfl

theorem processJDKsCached_out (sys paths : List String) (jdks : List JDK) (s : CacheState) :
    (processJDKsCached sys paths jdks s).1.2
      = processJDKs sys ((s.lookup (fingerprint paths)).map (·.2)) jdks := by
  simp only [processJDKsCached]
  cases hl : s.lookup (fingerprint paths) <;> simp [hl]

/-- C6: with string paths, detect always resolves (per-directory probe
failures are converted to "no record" by isJDK and never surface); in
particular when every probed directory fails to be a JDK the resolved
collection is empty. -/
theorem detect_probe_failures_recovered (sys platformPaths paths : List String)
    (probe : String → Except String JDK) (s : CacheState) :
    ((detect sys platformPaths (paths.map JSVal.vstr) probe s).1.isOk = true)
    ∧ ((∀ d, (probe d).toOption = none) →
        ∃ id, (detect sys platformPaths (paths.map JSVal.vstr) probe s).1
          = .ok (id, [])) := by
  rw [detect_strings_eval]
  constructor
  · rfl
  · intro hfail
    have hjdks : (canonicalPaths (platformPaths ++ paths)).filterMap (isJDK probe) = [] :=
      List.filterMap_eq_nil.mpr (fun d _ => hfail d)
    rw [hjdks]
    refine ⟨(processJDKsCached sys (canonicalPaths (platformPaths ++ paths)) [] s).1.1, ?_⟩
    have hout := processJDKsCached_out sys (canonicalPaths (platformPaths ++ paths)) [] s
    rw [processJDKs_nil] at hout
    simp only [Except.ok.injEq]
    exact Prod.ext_iff.mpr ⟨rfl, hout⟩

/-- C6, witness: with one path and a probe that always fails, detect resolves
with the empty collection. -/
theorem detect_probe_failures_recovered_witness :
    ∃ id, (detect [] [] (["jdk-dir"].map JSVal.vstr) (fun _ => .error "bad dir") emptyCache).1
        = .ok (id, []) :=
  (detect_probe_failures_recovered [] [] ["jdk-dir"] (fun _ => .error "bad dir")
    emptyCache).2 (fun _ => rfl)

/-! ### C9: watcher transplant on rescan -/

/-- Cached record for the C9 evidence: version 1.8.0 build 92, gawk wrapper
identities 40 and 41, with one attached record-level watcher (token 7). -/
def c9old : JDK :=
  { versionWId := 40, buildWId := 41, path := "/jdk8", version := "1.8.0",
    build := 92, architecture := "64bit", javac := none, default := true, watchers := [7] }

/-- Freshly scanned record for the C9 evidence: same version and build as the
cached record, but new wrapper identities (a new `JDK` construction) and no
watchers yet. -/
def c9new : JDK :=
  { versionWId := 42, buildWId := 43, path := "/jdk8", version := "1.8.0",
    build := 92, architecture := "64bit", javac := none, default := false, watchers := [] }

/-- C9, code-bug evidence: the transplant loop compares the gawk wrappers
returned by `get('version')` / `get('build')` with `===` and without `.toJS()`
(contrast the sort comparator at line 707), i.e. by object identity, so a
freshly scanned record sharing (version, build) with the cached record never
matches; after the rescan the new record still has no watchers even though
the cached record carried watcher token 7. -/
theorem watcher_transplant_not_copied :
    c9new.version = c9old.version ∧ c9new.build = c9old.build ∧ c9old.watchers = [7]
    ∧ (processJDKs [] (some [c9old]) [c9new]).map JDK.watchers = [[]] := by
  decide

/-! ### C10: constructor argument validation -/

/-- C10: for every argument that is not a non-empty string — the empty string
as well as non-string values — the JDK constructor fails with the TypeError
"Expected directory to be a valid string", for every filesystem state alike
(the filesystem checks run only after the type check passes), and constructs
no object. -/
theorem jdk_ctor_rejects_invalid (fs : FSModel) (dirArg : JSVal)
    (h : isNonEmptyString dirArg = false) :
    mkJDK fs dirArg = .error (.typeError "Expected directory to be a valid string") := by
  cases dirArg with
  | vnum n => rfl
  | vstr s =>
      have hs : s = "" := by
        simp only [isNonEmptyString, Bool.not_eq_false'] at h
        exact eq_of_beq h
      subst hs
      rfl

/-- C10, witness: the empty string and the number 123 are both rejected with
the TypeError, on a filesystem oracle where every check would succeed. -/
theorem jdk_ctor_rejects_invalid_witness :
    mkJDK ⟨"linux", fun _ => true, fun _ => true, fun pth => pth⟩ (.vstr "")
        = .error (.typeError "Expected directory to be a valid string")
    ∧ mkJDK ⟨"linux", fun _ => true, fun _ => true, fun pth => pth⟩ (.vnum 123)
        = .error (.typeError "Expected directory to be a valid string") :=
  ⟨jdk_ctor_rejects_invalid ⟨"linux", fun _ => true, fun _ => true, fun pth => pth⟩
      (.vstr "") rfl,
    jdk_ctor_rejects_invalid ⟨"linux", fun _ => true, fun _ => true, fun pth => pth⟩
      (.vnum 123) rfl⟩

/-! ### C7: cache fingerprint correctness -/

theorem mem_canonicalPaths (x : String) (l : List String) :
    x ∈ canonicalPaths l ↔ (x ∈ l ∧ x ≠ "") := by
  unfold canonicalPaths
  rw [(List.perm_insertionSort strLE _).mem_iff, List.mem_dedup, List.mem_filter]
  simp

theorem canonicalPaths_sorted (l : List String) : (canonicalPaths l).Sorted strLE :=
  List.sorted_insertionSort strLE _

theorem canonicalPaths_nodup (l : List String) : (canonicalPaths l).Nodup :=
  ((List.perm_insertionSort strLE _).nodup_iff).mpr (List.nodup_dedup _)

theorem canonicalPaths_idem (l : List String) :
    canonicalPaths (canonicalPaths l) = canonicalPaths l := by
  have hfilter : (canonicalPaths l).filter (fun x => x ≠ "") = canonicalPaths l :=
    List.filter_eq_self.mpr
      (fun a ha => by simpa using ((mem_canonicalPaths a l).mp ha).2)
  show List.insertionSort strLE ((canonicalPaths l).filter (fun x => x ≠ "")).dedup
      = canonicalPaths l
  rw [hfilter, List.dedup_eq_self.mpr (canonicalPaths_nodup l)]
  exact List.Sorted.insertionSort_eq (canonicalPaths_sorted l)

theorem fingerprint_eq_iff (p q : List String) :
    fingerprint p = fingerprint q ↔ (∀ x, (x ∈ p ∧ x ≠ "") ↔ (x ∈ q ∧ x ≠ "")) := by
  constructor
  · intro h x
    rw [← mem_canonicalPaths x p, ← mem_canonicalPaths x q]
    show x ∈ fingerprint p ↔ x ∈ fingerprint q
    rw [h]
  · intro h
    refine List.eq_of_perm_of_sorted ?_ (canonicalPaths_sorted p) (canonicalPaths_sorted q)
    refine (List.perm_ext_iff_of_nodup (canonicalPaths_nodup p) (canonicalPaths_nodup q)).mpr ?_
    intro a
    rw [mem_canonicalPaths, mem_canonicalPaths]
    exact h a

theorem lookup_empty (key : List String) : emptyCache.lookup key = none := rfl

theorem lookup_singleton (k key : List String) (i : Nat) (o : List JDK) (n : Nat) :
    CacheState.lookup { entries := [(k, i, o)], nextId := n } key
      = if k = key then some (i, o) else none := by
  unfold CacheState.lookup
  cases hk : (k == key) with
  | true =>
      rw [if_pos (by simpa using hk)]
      rw [List.find?_cons_of_pos _ (by simpa using hk)]
      rfl
  | false =>
      rw [if_neg (by simpa using hk)]
      rw [List.find?_cons_of_neg _ (by simpa using hk)]
      rfl

theorem processJDKsCached_id (sys paths : List String) (jdks : List JDK) (s : CacheState) :
    (processJDKsCached sys paths jdks s).1.1
      = (match s.lookup (fingerprint paths) with
          | some c => c.1
          | none => s.nextId) := by
  simp only [processJDKsCached]
  cases hl : s.lookup (fingerprint paths) <;> simp [hl]

theorem detect_empty_cache (sys p : List String) (probe : String → Except String JDK) :
    detect sys [] (p.map JSVal.vstr) probe emptyCache
      = (.ok (0, processJDKs sys none ((canonicalPaths p).filterMap (isJDK probe))),
         canonicalPaths p,
         { entries := [(canonicalPaths p, 0,
             processJDKs sys none ((canonicalPaths p).filterMap (isJDK probe)))],
           nextId := 1 }) := by
  rw [detect_strings_eval]
  simp only [List.nil_append, processJDKsCached, fingerprint, canonicalPaths_idem,
    lookup_empty]
  rfl

/-- C7: the cache key is exactly the canonicalized, deterministically sorted,
deduplicated path sequence — two fingerprints agree iff the path sets (their
non-empty members) agree regardless of order or duplication; and for two
detect runs starting from an empty cache, the returned collection identities
agree iff the fingerprints do, so different path sets never share a cache
entry while reordered equal path sets always do. -/
theorem cache_fingerprint_correct (sys : List String)
    (probe : String → Except String JDK) (p q : List String) :
    (fingerprint p = fingerprint q ↔ (∀ x, (x ∈ p ∧ x ≠ "") ↔ (x ∈ q ∧ x ≠ "")))
    ∧ (∀ id1 out1 probed1 s1 id2 out2 probed2 s2,
        detect sys [] (p.map JSVal.vstr) probe emptyCache = (.ok (id1, out1), probed1, s1) →
        detect sys [] (q.map JSVal.vstr) probe s1 = (.ok (id2, out2), probed2, s2) →
        (id1 = id2 ↔ fingerprint p = fingerprint q)) := by
  refine ⟨fingerprint_eq_iff p q, ?_⟩
  intro id1 out1 probed1 s1 id2 out2 probed2 s2 h1 h2
  rw [detect_empty_cache] at h1
  simp only [Prod.mk.injEq, Except.ok.injEq] at h1
  obtain ⟨⟨hid1, hout1⟩, hprobed1, hs1⟩ := h1
  rw [detect_strings_eval] at h2
  simp only [List.nil_append] at h2
  have hfst := congrArg (fun t => t.1) h2
  simp only at hfst
  have hpair := Except.ok.inj hfst
  have hid2 := congrArg Prod.fst hpair
  simp only at hid2
  have hkey : (processJDKsCached sys (canonicalPaths q)
      ((canonicalPaths q).filterMap (isJDK probe)) s1).1.1
      = if canonicalPaths p = canonicalPaths q then 0 else 1 := by
    rw [processJDKsCached_id]
    show (match s1.lookup (fingerprint (canonicalPaths q)) with
          | some c => c.1
          | none => s1.nextId) = _
    rw [show fingerprint (canonicalPaths q) = canonicalPaths q from canonicalPaths_idem q]
    rw [← hs1, lookup_singleton]
    by_cases hpq : canonicalPaths p = canonicalPaths q
    · rw [if_pos hpq, if_pos hpq]
    · rw [if_neg hpq, if_neg hpq]
  rw [← hid1, ← hid2, hkey]
  unfold fingerprint
  split
  · rename_i hpq
    simp [hpq]
  · rename_i hpq
    constructor
    · intro hc; exact absurd hc (by decide)
    · intro hc; exact absurd hc hpq

/-- C7, witness: the path lists ["b", "a"] and ["a", "", "b", "a"] have the
same non-empty members in different order; two detect runs from an empty
cache resolve to the same entry identity (0 and 0), matching the equal
fingerprints. -/
theorem cache_fingerprint_correct_witness :
    (0 : Nat) = 0 ↔ fingerprint ["b", "a"] = fingerprint ["a", "", "b", "a"] :=
  (cache_fingerprint_correct [] (fun _ => .error "x") ["b", "a"] ["a", "", "b", "a"]).2
    0 [] ["a", "b"] ⟨[(["a", "b"], 0, [])], 1⟩
    0 [] ["a", "b"] ⟨[(["a", "b"], 0, [])], 1⟩
    rfl rfl

/-! ### C8: idempotence and in-place cache update -/

/-- The default-marking part of the `processJDKs` loop, without watcher
copying (proof infrastructure for factoring the loop). -/
def markLoop (sys : List String) : Bool → List JDK → List JDK
  | _, [] => []
  | found, j :: rest =>
      if !found && inSystemPath sys j then
        { j with default := true } :: markLoop sys true rest
      else j :: markLoop sys found rest

/-- The `foundDefault` flag computed by the loop. -/
def markFound (sys : List String) : Bool → List JDK → Bool
  | found, [] => found
  | found, j :: rest =>
      if !found && inSystemPath sys j then markFound sys true rest
      else markFound sys found rest

theorem processLoop_factor (sys : List String) (cached : Option (List JDK)) :
    ∀ (found : Bool) (l : List JDK),
      processLoop sys cached found l
        = ((markLoop sys found l).map (copyW cached), markFound sys found l) := by
  intro found l
  induction l generalizing found with
  | nil => rfl
  | cons j rest ih =>
      unfold processLoop markLoop markFound
      cases hp : (!found && inSystemPath sys j) with
      | true => simp [hp, ih]
      | false => simp [hp, ih]

theorem markLoop_map_wid (sys : List String) :
    ∀ (found : Bool) (l : List JDK), (markLoop sys found l).map wid = l.map wid := by
  intro found l
  induction l generalizing found with
  | nil => rfl
  | cons j rest ih =>
      unfold markLoop
      cases hp : (!found && inSystemPath sys j) with
      | true => simp [hp, ih, wid]
      | false => simp [hp, ih]

/-- The relation between a pre-copy marked record and its processed version:
same wrapper identities, and the processed watchers are what copying from the
first-call cache produced. -/
def Rw (cv : Option (List JDK)) (j c : JDK) : Prop :=
  c.versionWId = j.versionWId ∧ c.buildWId = j.buildWId ∧
    c.watchers = (copyW cv j).watchers

theorem forall2_Rw_map (cv : Option (List JDK)) (m : List JDK) :
    List.Forall₂ (Rw cv) m (m.map (copyW cv)) := by
  induction m with
  | nil => exact List.Forall₂.nil
  | cons j m' ih =>
      refine List.Forall₂.cons ?_ ih
      obtain ⟨w, hw⟩ := copyW_shape cv j
      refine ⟨?_, ?_, rfl⟩ <;> rw [hw]

theorem forall2_Rw_setLast (cv : Option (List JDK)) :
    ∀ (m l : List JDK), List.Forall₂ (Rw cv) m l →
      List.Forall₂ (Rw cv) m (setLastDefault l) := by
  intro m l h
  induction h with
  | nil => exact List.Forall₂.nil
  | cons hjc htail ih =>
      rename_i j c m' l'
      cases l' with
      | nil =>
          cases htail
          exact List.Forall₂.cons ⟨hjc.1, hjc.2.1, hjc.2.2⟩ List.Forall₂.nil
      | cons c2 l2 =>
          exact List.Forall₂.cons hjc ih

theorem copy_against (cv : Option (List JDK)) :
    ∀ (m out1 : List JDK), List.Forall₂ (Rw cv) m out1 → (m.map wid).Nodup →
      m.map (copyWatchers out1) = m.map (copyW cv) := by
  intro m out1 h hnd
  induction h with
  | nil => rfl
  | cons hjc htail ih =>
      rename_i j c m' out'
      rw [List.map_cons, List.nodup_cons] at hnd
      obtain ⟨hjnot, hnd'⟩ := hnd
      have hhead : copyWatchers (c :: out') j = copyW cv j := by
        unfold copyWatchers
        rw [List.find?_cons_of_pos _ (by simp [hjc.1, hjc.2.1])]
        show { j with watchers := c.watchers } = copyW cv j
        obtain ⟨w, hw⟩ := copyW_shape cv j
        rw [hjc.2.2, hw]
      have htl : ∀ x ∈ m', copyWatchers (c :: out') x = copyWatchers out' x := by
        intro x hx
        have hxj : wid x ≠ wid j := by
          intro hxw
          exact hjnot (hxw ▸ List.mem_map_of_mem wid hx)
        have hfalse : (c.versionWId == x.versionWId && c.buildWId == x.buildWId) = false := by
          rw [hjc.1, hjc.2.1]
          by_contra hc
          rw [Bool.not_eq_false, Bool.and_eq_true, beq_iff_eq, beq_iff_eq] at hc
          exact hxj (by simp [wid, hc.1, hc.2])
        unfold copyWatchers
        rw [List.find?_cons_of_neg _ (by simp [hfalse])]
      rw [List.map_cons, List.map_cons, hhead, List.map_congr_left htl, ih hnd']

/-- Re-processing the same scanned records against the collection produced by
the previous processing yields the same collection: sorting and default
selection are deterministic, and watcher copying from the previous collection
is the identity on it (the wrapper identities match record-for-record). -/
theorem processJDKs_stable (sys : List String) (cv : Option (List JDK)) (jdks : List JDK)
    (hids : (jdks.map wid).Nodup) :
    processJDKs sys (some (processJDKs sys cv jdks)) jdks = processJDKs sys cv jdks := by
  have hnodup : ((markLoop sys false (jdkSort jdks)).map wid).Nodup := by
    rw [markLoop_map_wid]
    exact (((List.perm_insertionSort jdkLE jdks).map wid).nodup_iff).mpr hids
  have hcopyfun : ∀ (o : List JDK) (x : JDK), copyW (some o) x = copyWatchers o x :=
    fun _ _ => rfl
  unfold processJDKs
  simp only [processLoop_factor]
  cases hf : markFound sys false (jdkSort jdks) with
  | true =>
      simp only [hf, if_pos rfl]
      rw [List.map_congr_left (fun x _ => hcopyfun _ x)]
      exact copy_against cv _ _ (forall2_Rw_map cv _) hnodup
  | false =>
      simp only [hf, Bool.false_eq_true, if_false]
      apply congrArg setLastDefault
      rw [List.map_congr_left (fun x _ => hcopyfun _ x)]
      exact copy_against cv _ _ (forall2_Rw_setLast cv _ _ (forall2_Rw_map cv _)) hnodup

theorem find?_update_list (es : List (List String × Nat × List JDK)) (key : List String)
    (out : List JDK) :
    (es.map (fun e => if e.1 == key then (e.1, e.2.1, out) else e)).find? (fun e => e.1 == key)
      = (es.find? (fun e => e.1 == key)).map (fun e => (e.1, e.2.1, out)) := by
  induction es with
  | nil => rfl
  | cons e es ih =>
      cases he : (e.1 == key) with
      | true =>
          rw [List.map_cons, if_pos he]
          rw [List.find?_cons_of_pos _ (by simpa using he),
            List.find?_cons_of_pos _ (by simpa using he)]
          rfl
      | false =>
          rw [List.map_cons, if_neg (by simpa using he)]
          rw [List.find?_cons_of_neg _ (by simpa using he),
            List.find?_cons_of_neg _ (by simpa using he)]
          exact ih

theorem lookup_update (s : CacheState) (key : List String) (out : List JDK) :
    (s.update key out).lookup key = (s.lookup key).map (fun c => (c.1, out)) := by
  unfold CacheState.update CacheState.lookup
  show ((s.entries.map _).find? _).map _ = _
  rw [find?_update_list]
  cases s.entries.find? (fun e => e.1 == key) <;> rfl

theorem lookup_cons_self (key : List String) (i : Nat) (o : List JDK)
    (es : List (List String × Nat × List JDK)) (n : Nat) :
    CacheState.lookup { entries := (key, i, o) :: es, nextId := n } key = some (i, o) := by
  unfold CacheState.lookup
  rw [List.find?_cons_of_pos _ (by simp)]
  rfl

theorem processJDKsCached_eq (sys paths : List String) (jdks : List JDK) (s : CacheState) :
    processJDKsCached sys paths jdks s
      = (match s.lookup (fingerprint paths) with
          | some c =>
              ((c.1, processJDKs sys (some c.2) jdks),
                s.update (fingerprint paths) (processJDKs sys (some c.2) jdks))
          | none =>
              ((s.nextId, processJDKs sys none jdks),
                { entries := (fingerprint paths, s.nextId, processJDKs sys none jdks)
                    :: s.entries,
                  nextId := s.nextId + 1 })) := by
  simp only [processJDKsCached]
  cases hl : s.lookup (fingerprint paths) <;> simp [hl]

/-- After a processing round, the cache entry for the fingerprint holds
exactly the returned identity and contents. -/
theorem processJDKsCached_lookup (sys paths : List String) (jdks : List JDK) (s : CacheState) :
    (processJDKsCached sys paths jdks s).2.lookup (fingerprint paths)
      = some (processJDKsCached sys paths jdks s).1 := by
  rw [processJDKsCached_eq]
  cases hl : s.lookup (fingerprint paths) with
  | some c => simp [lookup_update, hl]
  | none => simp [lookup_cons_self]

theorem processJDKsCached_idem (sys K : List String) (J : List JDK) (s : CacheState)
    (hids : (J.map wid).Nodup) :
    (processJDKsCached sys K J (processJDKsCached sys K J s).2).1
        = (processJDKsCached sys K J s).1
    ∧ (processJDKsCached sys K J (processJDKsCached sys K J s).2).2.lookup (fingerprint K)
        = some (processJDKsCached sys K J s).1 := by
  have hl1 := processJDKsCached_lookup sys K J s
  have hout1 := processJDKsCached_out sys K J s
  have h1 : (processJDKsCached sys K J (processJDKsCached sys K J s).2).1
      = (processJDKsCached sys K J s).1 := by
    rw [processJDKsCached_eq sys K J (processJDKsCached sys K J s).2, hl1]
    show ((processJDKsCached sys K J s).1.1,
        processJDKs sys (some (processJDKsCached sys K J s).1.2) J) = _
    rw [hout1, processJDKs_stable sys _ J hids, ← hout1]
  exact ⟨h1, by rw [processJDKsCached_lookup, h1]⟩

/-- C8: two detect calls on an unchanged path set (with an unchanged
filesystem, i.e. the same pure probe) return the same collection instance
identity with equal contents — the same gawk array reference in the
observable form, a deep-equal value in the snapshot form — and the cache
entry for the fingerprint is updated in place: after both calls it still
holds that same identity and contents, never a new instance.  Hypothesis:
the scanned records carry pairwise distinct gawk wrapper identities, as
separate `new JDK(...)` constructions do. -/
theorem detect_idempotent_in_place (sys platformPaths paths : List String)
    (probe : String → Except String JDK) (s : CacheState)
    (hids : ((((canonicalPaths (platformPaths ++ paths)).filterMap (isJDK probe)).map
      wid)).Nodup) :
    ∃ id out probed s1 s2,
      detect sys platformPaths (paths.map JSVal.vstr) probe s
          = (.ok (id, out), probed, s1)
      ∧ detect sys platformPaths (paths.map JSVal.vstr) probe s1
          = (.ok (id, out), probed, s2)
      ∧ s1.lookup (fingerprint (platformPaths ++ paths)) = some (id, out)
      ∧ s2.lookup (fingerprint (platformPaths ++ paths)) = some (id, out) := by
  have hKK : fingerprint (canonicalPaths (platformPaths ++ paths))
      = canonicalPaths (platformPaths ++ paths) := canonicalPaths_idem _
  obtain ⟨h1, h2⟩ := processJDKsCached_idem sys (canonicalPaths (platformPaths ++ paths))
    ((canonicalPaths (platformPaths ++ paths)).filterMap (isJDK probe)) s hids
  have hl1 := processJDKsCached_lookup sys (canonicalPaths (platformPaths ++ paths))
    ((canonicalPaths (platformPaths ++ paths)).filterMap (isJDK probe)) s
  rw [hKK] at h2 hl1
  refine ⟨(processJDKsCached sys (canonicalPaths (platformPaths ++ paths))
      ((canonicalPaths (platformPaths ++ paths)).filterMap (isJDK probe)) s).1.1,
    (processJDKsCached sys (canonicalPaths (platformPaths ++ paths))
      ((canonicalPaths (platformPaths ++ paths)).filterMap (isJDK probe)) s).1.2,
    canonicalPaths (platformPaths ++ paths),
    (processJDKsCached sys (canonicalPaths (platformPaths ++ paths))
      ((canonicalPaths (platformPaths ++ paths)).filterMap (isJDK probe)) s).2,
    (processJDKsCached sys (canonicalPaths (platformPaths ++ paths))
      ((canonicalPaths (platformPaths ++ paths)).filterMap (isJDK probe))
      (processJDKsCached sys (canonicalPaths (platformPaths ++ paths))
        ((canonicalPaths (platformPaths ++ paths)).filterMap (isJDK probe)) s).2).2,
    ?_, ?_, ?_, ?_⟩
  · rw [detect_strings_eval]
  · rw [detect_strings_eval, h1]
  · exact hl1
  · exact h2

/-- Concrete scanned record for the C8 witness. -/
def w8jdk : JDK :=
  { versionWId := 50, buildWId := 51, path := "/jdk", version := "1.8.0",
    build := 92, architecture := "64bit", javac := some "/jdk/bin/javac",
    default := false, watchers := [] }

/-- Concrete probe for the C8 witness: the directory /jdk contains a JDK and
every other directory fails. -/
def w8probe : String → Except String JDK :=
  fun d => if d = "/jdk" then .ok w8jdk else .error "not a JDK"

/-- C8, witness: two detect runs over the path list ["/jdk"] from the empty
cache return the same identity and contents, and the cache entry stays put. -/
theorem detect_idempotent_in_place_witness :
    ∃ id out probed s1 s2,
      detect [] [] (["/jdk"].map JSVal.vstr) w8probe emptyCache
          = (.ok (id, out), probed, s1)
      ∧ detect [] [] (["/jdk"].map JSVal.vstr) w8probe s1
          = (.ok (id, out), probed, s2)
      ∧ s1.lookup (fingerprint ([] ++ ["/jdk"])) = some (id, out)
      ∧ s2.lookup (fingerprint ([] ++ ["/jdk"])) = some (id, out) :=
  detect_idempotent_in_place [] [] ["/jdk"] w8probe emptyCache (by decide)

end Jdklib
